import Mathlib

/-!
Shallow embedding of scripts/test-renegotiation-disabled.py (tlsfuzzer).

The script builds five conversation graphs (a "sanity" handshake plus four
renegotiation probes), samples a subset of the non-sanity ones, runs them with
the sanity conversation first and last, counts successes and failures, and
exits with status 1 when anything failed.

The external collaborators (tlsfuzzer.runner, tlsfuzzer.messages,
tlsfuzzer.expect, tlslite) are not part of the sources; the graph nodes are
embedded as an inductive of node descriptors, the graph-construction calls
(add_child, next_sibling assignment) as an explicit operation list, Python's
random.sample as a draw-without-replacement function over a PRNG oracle, and
Runner.run() as an outcome oracle per loop iteration (true = returned
normally, false = raised an exception that the script catches).
-/

namespace TRD

/-! Wire constants taken from tlslite.constants (external library; the values
are the IANA TLS registry values the library defines). -/

def TLS_RSA_WITH_AES_128_CBC_SHA : Nat := 47

def TLS_EMPTY_RENEGOTIATION_INFO_SCSV : Nat := 255

namespace AlertLevel

def warning : Nat := 1

def fatal : Nat := 2

end AlertLevel

namespace AlertDescription

def close_notify : Nat := 0

def no_renegotiation : Nat := 100

end AlertDescription

namespace ExtensionType

def renegotiation_info : Nat := 65281

end ExtensionType

/-- Descriptor of one graph node as constructed by the script.  For the
ClientHello generator the script passes a cipher list, optionally a
session_id (an empty bytearray in this script) and optionally an extensions
dict whose values are all None, so only the extension-type keys are kept.
ApplicationData payloads are kept as the byte strings the script writes. -/
inductive NodeKind where
  | connect (host : String) (port : Nat)
  | clientHelloGenerator (ciphers : List Nat) (sessionId : Option (List Nat))
      (extensions : Option (List Nat))
  | expectServerHello (extensions : Option (List Nat))
  | expectCertificate
  | expectServerHelloDone
  | clientKeyExchangeGenerator
  | changeCipherSpecGenerator
  | finishedGenerator
  | expectChangeCipherSpec
  | expectFinished
  | applicationDataGenerator (payload : String)
  | expectApplicationData
  | alertGenerator (level : Nat) (description : Nat)
  | expectAlert (level : Option Nat) (description : Option Nat)
  | expectClose
  | resetHandshakeHashes
deriving DecidableEq

/-- A conversation-graph node: its descriptor, its child nodes (the spec's
graph API, section 4.3, appends children with add_child) and an optional
next_sibling node. -/
inductive Node where
  | mk (kind : NodeKind) (children : List Node) (sibling : Option Node)

def Node.kind : Node → NodeKind
  | .mk k _ _ => k

/-- One graph-building statement of the script: either
node = node.add_child(X) (append X as child, X becomes the current node) or
node.next_sibling = X (set the sibling of the current node). -/
inductive BuildOp where
  | addChild (k : NodeKind)
  | setNextSibling (k : NodeKind)

def setSibling : Node → NodeKind → Node
  | .mk k cs _, s => .mk k cs (some (.mk s [] none))

/-- Run a list of build operations starting from a root node kind, the way
the script's fluent node = node.add_child(...) chains do. -/
def buildFrom (k : NodeKind) : List BuildOp → Node
  | [] => .mk k [] none
  | .addChild c :: rest => .mk k [buildFrom c rest] none
  | .setNextSibling s :: rest => setSibling (buildFrom k rest) s

/-- The chain of node descriptors reachable by always taking the first
child. For the graphs this script builds this is the whole conversation. -/
def spine : Node → List NodeKind
  | .mk k [] _ => [k]
  | .mk k (c :: _) _ => k :: spine c

/-- True when every node of the graph has at most one child. -/
def linearChain : Node → Bool
  | .mk _ [] _ => true
  | .mk _ [c] _ => linearChain c
  | .mk _ (_ :: _ :: _) _ => false

/-- The descriptor of the next_sibling attached to the last node of the
first-child chain, if any. -/
def lastSiblingKind : Node → Option NodeKind
  | .mk _ [] s => s.map Node.kind
  | .mk _ (c :: _) _ => lastSiblingKind c

def NodeKind.isCHGen : NodeKind → Bool
  | .clientHelloGenerator _ _ _ => true
  | _ => false

/-- The descriptor directly after the (n+1)-th ClientHello generator of a
descriptor sequence, if present. -/
def afterNthCH : Nat → List NodeKind → Option NodeKind
  | _, [] => none
  | n, k :: rest =>
    if k.isCHGen then
      match n with
      | 0 => rest.head?
      | m + 1 => afterNthCH m rest
    else afterNthCH n rest

/-- The descriptor directly before the (n+1)-th ClientHello generator that
occurs at position 1 or later of a descriptor sequence, if present. -/
def predOfNthCH : Nat → List NodeKind → Option NodeKind
  | _, [] => none
  | _, [_] => none
  | n, a :: b :: rest =>
    if b.isCHGen then
      match n with
      | 0 => some a
      | m + 1 => predOfNthCH m (b :: rest)
    else predOfNthCH n (b :: rest)

/-! The five conversations of the script, line for line. -/

def getRequestFull : String := "GET /?Renegotiation_Test=tlsfuzzer HTTP/1.0\r\n\r\n"

def getRequestLine : String := "GET /?Renegotiation_Test=tlsfuzzer HTTP/1.0\r\n"

def crlf : String := "\r\n"

def renegoExt : Option (List Nat) := some [ExtensionType.renegotiation_info]

/-- Lines 79-99: the sanity conversation. -/
def sanityConversation (host : String) (port : Nat) : Node :=
  buildFrom (.connect host port)
    [.addChild (.clientHelloGenerator
        [TLS_RSA_WITH_AES_128_CBC_SHA, TLS_EMPTY_RENEGOTIATION_INFO_SCSV] none none),
     .addChild (.expectServerHello none),
     .addChild .expectCertificate,
     .addChild .expectServerHelloDone,
     .addChild .clientKeyExchangeGenerator,
     .addChild .changeCipherSpecGenerator,
     .addChild .finishedGenerator,
     .addChild .expectChangeCipherSpec,
     .addChild .expectFinished,
     .addChild (.applicationDataGenerator getRequestFull),
     .addChild .expectApplicationData,
     .addChild (.alertGenerator AlertLevel.warning AlertDescription.close_notify),
     .addChild (.expectAlert none none),
     .setNextSibling .expectClose]

/-- Lines 102-140: secure renegotiation, GET sent after the second
ClientHello. -/
def secureRenegoGetConversation (host : String) (port : Nat)
    (no_renego_close : Bool) : Node :=
  buildFrom (.connect host port)
    ([.addChild (.clientHelloGenerator [TLS_RSA_WITH_AES_128_CBC_SHA] none renegoExt),
      .addChild (.expectServerHello renegoExt),
      .addChild .expectCertificate,
      .addChild .expectServerHelloDone,
      .addChild .clientKeyExchangeGenerator,
      .addChild .changeCipherSpecGenerator,
      .addChild .finishedGenerator,
      .addChild .expectChangeCipherSpec,
      .addChild .expectFinished,
      .addChild .resetHandshakeHashes,
      .addChild (.clientHelloGenerator [TLS_RSA_WITH_AES_128_CBC_SHA] (some []) renegoExt),
      .addChild (.expectAlert (some AlertLevel.warning)
        (some AlertDescription.no_renegotiation))] ++
     (if no_renego_close then
        [.addChild (.expectAlert (some AlertLevel.warning)
           (some AlertDescription.close_notify)),
         .addChild .expectClose]
      else
        [.addChild (.applicationDataGenerator getRequestLine),
         .addChild (.applicationDataGenerator crlf),
         .addChild .expectApplicationData,
         .addChild (.alertGenerator AlertLevel.warning AlertDescription.close_notify),
         .addChild (.expectAlert none none),
         .setNextSibling .expectClose]))

/-- Lines 143-182: secure renegotiation, incomplete GET sent before the
second ClientHello. -/
def secureRenegoIncompleteConversation (host : String) (port : Nat)
    (no_renego_close : Bool) : Node :=
  buildFrom (.connect host port)
    ([.addChild (.clientHelloGenerator [TLS_RSA_WITH_AES_128_CBC_SHA] none renegoExt),
      .addChild (.expectServerHello renegoExt),
      .addChild .expectCertificate,
      .addChild .expectServerHelloDone,
      .addChild .clientKeyExchangeGenerator,
      .addChild .changeCipherSpecGenerator,
      .addChild .finishedGenerator,
      .addChild .expectChangeCipherSpec,
      .addChild .expectFinished,
      .addChild (.applicationDataGenerator getRequestLine),
      .addChild .resetHandshakeHashes,
      .addChild (.clientHelloGenerator [TLS_RSA_WITH_AES_128_CBC_SHA] (some []) renegoExt),
      .addChild (.expectAlert (some AlertLevel.warning)
        (some AlertDescription.no_renegotiation))] ++
     (if no_renego_close then
        [.addChild (.expectAlert (some AlertLevel.warning)
           (some AlertDescription.close_notify)),
         .addChild .expectClose]
      else
        [.addChild (.applicationDataGenerator crlf),
         .addChild .expectApplicationData,
         .addChild (.alertGenerator AlertLevel.warning AlertDescription.close_notify),
         .addChild (.expectAlert none none),
         .setNextSibling .expectClose]))

/-- Lines 185-219: insecure (legacy) renegotiation, GET sent after the
second ClientHello. -/
def insecureRenegoGetConversation (host : String) (port : Nat)
    (no_renego_close : Bool) : Node :=
  buildFrom (.connect host port)
    ([.addChild (.clientHelloGenerator [TLS_RSA_WITH_AES_128_CBC_SHA] none none),
      .addChild (.expectServerHello none),
      .addChild .expectCertificate,
      .addChild .expectServerHelloDone,
      .addChild .clientKeyExchangeGenerator,
      .addChild .changeCipherSpecGenerator,
      .addChild .finishedGenerator,
      .addChild .expectChangeCipherSpec,
      .addChild .expectFinished,
      .addChild .resetHandshakeHashes,
      .addChild (.clientHelloGenerator [TLS_RSA_WITH_AES_128_CBC_SHA] (some []) none),
      .addChild (.expectAlert (some AlertLevel.warning)
        (some AlertDescription.no_renegotiation))] ++
     (if no_renego_close then
        [.addChild (.expectAlert (some AlertLevel.warning)
           (some AlertDescription.close_notify)),
         .addChild .expectClose]
      else
        [.addChild (.applicationDataGenerator getRequestLine),
         .addChild (.applicationDataGenerator crlf),
         .addChild .expectApplicationData,
         .addChild (.alertGenerator AlertLevel.warning AlertDescription.close_notify),
         .addChild (.expectAlert none none),
         .setNextSibling .expectClose]))

/-- Lines 222-257: insecure (legacy) renegotiation, incomplete GET sent
before the second ClientHello. -/
def insecureRenegoIncompleteConversation (host : String) (port : Nat)
    (no_renego_close : Bool) : Node :=
  buildFrom (.connect host port)
    ([.addChild (.clientHelloGenerator [TLS_RSA_WITH_AES_128_CBC_SHA] none none),
      .addChild (.expectServerHello none),
      .addChild .expectCertificate,
      .addChild .expectServerHelloDone,
      .addChild .clientKeyExchangeGenerator,
      .addChild .changeCipherSpecGenerator,
      .addChild .finishedGenerator,
      .addChild .expectChangeCipherSpec,
      .addChild .expectFinished,
      .addChild (.applicationDataGenerator getRequestLine),
      .addChild .resetHandshakeHashes,
      .addChild (.clientHelloGenerator [TLS_RSA_WITH_AES_128_CBC_SHA] (some []) none),
      .addChild (.expectAlert (some AlertLevel.warning)
        (some AlertDescription.no_renegotiation))] ++
     (if no_renego_close then
        [.addChild (.expectAlert (some AlertLevel.warning)
           (some AlertDescription.close_notify)),
         .addChild .expectClose]
      else
        [.addChild (.applicationDataGenerator crlf),
         .addChild .expectApplicationData,
         .addChild (.alertGenerator AlertLevel.warning AlertDescription.close_notify),
         .addChild (.expectAlert none none),
         .setNextSibling .expectClose]))

/-- The conversations dict of main(), in insertion order (Python dicts keep
insertion order, so conversations.items() lists them in this order). -/
def conversationsList (host : String) (port : Nat) (nrc : Bool) :
    List (String × Node) :=
  [("sanity", sanityConversation host port),
   ("try secure renegotiation with GET after 2nd CH",
     secureRenegoGetConversation host port nrc),
   ("try secure renegotiation with incomplete GET",
     secureRenegoIncompleteConversation host port nrc),
   ("try insecure (legacy) renegotiation with GET after 2nd CH",
     insecureRenegoGetConversation host port nrc),
   ("try insecure (legacy) renegotiation with incomplete GET",
     insecureRenegoIncompleteConversation host port nrc)]

/-! Lines 261-276: sampling and ordering of the tests. -/

/-- Model of Python random.sample(pool, k): k draws without replacement.
rand is the PRNG oracle: rand j is the raw random number used for the draw
made while j draws (including the current one) remain, reduced modulo the
current pool size to pick an index; the picked element is removed from the
pool before the next draw. -/
def sampleR (rand : Nat → Nat) : Nat → List α → List α
  | _, [] => []
  | 0, _ => []
  | k + 1, a :: as =>
    (a :: as).get ⟨rand (k + 1) % (as.length + 1), Nat.mod_lt _ (Nat.succ_pos as.length)⟩ ::
      sampleR rand k ((a :: as).eraseIdx (rand (k + 1) % (as.length + 1)))

/-- random.sample raises ValueError unless 0 ≤ k ≤ len(pool); that error is
not caught anywhere in main(), so it is modelled as none. -/
def pySample (rand : Nat → Nat) (pop : List α) (k : Int) : Option (List α) :=
  if 0 ≤ k ∧ k ≤ (pop.length : Int) then some (sampleR rand k.toNat pop) else none

/-- Lines 264-265: if not num_limit: num_limit = len(conversations).
Python truthiness: both a missing -n option (None) and -n 0 take the
default. -/
def effNumLimit (nconv : Nat) : Option Int → Int
  | none => (nconv : Int)
  | some k => if k = 0 then (nconv : Int) else k

/-- Line 269: sanity_tests = [('sanity', conversations['sanity'])]. -/
def sanity_tests (host : String) (port : Nat) : List (String × Node) :=
  [("sanity", sanityConversation host port)]

/-- Line 270: the conversations other than 'sanity', in dict order. -/
def regular_tests (host : String) (port : Nat) (nrc : Bool) :
    List (String × Node) :=
  (conversationsList host port nrc).filter (fun kv => kv.1 != "sanity")

/-- Line 271: sampled_tests = sample(regular_tests, min(num_limit,
len(regular_tests))), with num_limit first defaulted per lines 264-265. -/
def sampled_tests (rand : Nat → Nat) (host : String) (port : Nat) (nrc : Bool)
    (nl : Option Int) : Option (List (String × Node)) :=
  pySample rand (regular_tests host port nrc)
    (min (effNumLimit (conversationsList host port nrc).length nl)
      ((regular_tests host port nrc).length : Int))

/-- Line 272: ordered_tests = chain(sanity_tests, sampled_tests,
sanity_tests). -/
def ordered_tests (rand : Nat → Nat) (host : String) (port : Nat) (nrc : Bool)
    (nl : Option Int) : Option (List (String × Node)) :=
  (sampled_tests rand host port nrc nl).map
    (fun s => sanity_tests host port ++ s ++ sanity_tests host port)

/-! Lines 274-306: the run loop and the final report. -/

/-- Python truthiness of run_only: main() sets it to None when no probe
names were given on the command line and to the (then nonempty) set of
names otherwise. -/
def pyTruthy : Option (List String) → Bool
  | none => false
  | some l => !l.isEmpty

/-- Line 275: run_only and c_name not in run_only or c_name in run_exclude,
with Python precedence (and binds tighter than or). -/
def skipTest (run_only : Option (List String)) (run_exclude : List String)
    (c_name : String) : Bool :=
  (pyTruthy run_only && !((run_only.getD []).contains c_name)) ||
    run_exclude.contains c_name

/-- The mutable result data of the run loop: good and bad counters and the
list of failed conversation names, in failure order (lines 261-263 start
them at 0, 0, []). -/
structure RunState where
  good : Nat
  bad : Nat
  failed : List String
deriving DecidableEq

/-- Lines 274-294.  outcome is the Runner.run() oracle: outcome i is true
when the runner of the i-th loop iteration returns normally and false when
it raises an exception (which the script catches, prints, and records by
counting the conversation as bad and appending its name to failed). -/
def runLoop (outcome : Nat → Bool) (ro : Option (List String))
    (re : List String) : Nat → List (String × Node) → RunState → RunState
  | _, [], st => st
  | i, t :: ts, st =>
    if skipTest ro re t.1 then
      runLoop outcome ro re (i + 1) ts st
    else if outcome i then
      runLoop outcome ro re (i + 1) ts { st with good := st.good + 1 }
    else
      runLoop outcome ro re (i + 1) ts
        { st with bad := st.bad + 1, failed := st.failed ++ [t.1] }

/-- The loop iterations that actually execute a runner: position in the
ordered sequence (counting from i) and conversation name of every entry the
line-275 filter does not skip. -/
def executedF (ro : Option (List String)) (re : List String) :
    Nat → List (String × Node) → List (Nat × String)
  | _, [] => []
  | i, t :: ts =>
    if skipTest ro re t.1 then executedF ro re (i + 1) ts
    else (i, t.1) :: executedF ro re (i + 1) ts

/-- Name and outcome of every executed loop iteration, in order. -/
def attemptedOutcomes (outcome : Nat → Bool) (ro : Option (List String))
    (re : List String) (ts : List (String × Node)) : List (String × Bool) :=
  (executedF ro re 0 ts).map (fun e => (e.2, outcome e.1))

/-- Lines 305-306: sys.exit(1) when bad > 0, otherwise main() returns and
the process exits with status 0. -/
def exitStatus (st : RunState) : Nat := if st.bad > 0 then 1 else 0

/-! Helper lemmas. -/

theorem length_filter_split (l : List α) (p : α → Bool) :
    (l.filter p).length + (l.filter (fun a => !p a)).length = l.length := by
  induction l with
  | nil => rfl
  | cons a l ih => by_cases h : p a <;> simp [List.filter, h] <;> omega

theorem perm_get_cons_eraseIdx :
    ∀ (l : List α) (i : Nat) (h : i < l.length),
      l.Perm (l.get ⟨i, h⟩ :: l.eraseIdx i) := by
  intro l
  induction l with
  | nil => intro i h; exact absurd h (Nat.not_lt_zero i)
  | cons a as ih =>
    intro i h
    match i with
    | 0 => simp [List.eraseIdx]
    | j + 1 =>
      have hj : j < as.length := Nat.lt_of_succ_lt_succ h
      have step := (ih j hj).cons a
      exact step.trans (List.Perm.swap (as.get ⟨j, hj⟩) a (as.eraseIdx j))

theorem sampleR_length (rand : Nat → Nat) :
    ∀ (k : Nat) (pool : List α), k ≤ pool.length →
      (sampleR rand k pool).length = k := by
  intro k
  induction k with
  | zero => intro pool _; cases pool <;> rfl
  | succ k ih =>
    intro pool hk
    match pool with
    | [] => exact absurd hk (by simp)
    | a :: as =>
      have hlt : rand (k + 1) % (as.length + 1) < (a :: as).length :=
        Nat.mod_lt _ (Nat.succ_pos as.length)
      have herase : ((a :: as).eraseIdx (rand (k + 1) % (as.length + 1))).length
          = as.length := by
        rw [List.length_eraseIdx, if_pos hlt]; rfl
      have hk' : k ≤ as.length := Nat.le_of_succ_le_succ hk
      simp [sampleR, ih _ (by rw [herase]; exact hk')]

theorem sampleR_perm (rand : Nat → Nat) :
    ∀ (k : Nat) (pool : List α),
      ∃ rest, pool.Perm (sampleR rand k pool ++ rest) := by
  intro k
  induction k with
  | zero =>
    intro pool
    exact ⟨pool, by cases pool <;> simp [sampleR]⟩
  | succ k ih =>
    intro pool
    match pool with
    | [] => exact ⟨[], by simp [sampleR]⟩
    | a :: as =>
      have hlt : rand (k + 1) % (as.length + 1) < (a :: as).length :=
        Nat.mod_lt _ (Nat.succ_pos as.length)
      obtain ⟨rest, hrest⟩ := ih ((a :: as).eraseIdx (rand (k + 1) % (as.length + 1)))
      refine ⟨rest, ?_⟩
      have hstep := perm_get_cons_eraseIdx (a :: as) _ hlt
      exact hstep.trans (by simpa [sampleR] using hrest.cons ((a :: as).get ⟨_, hlt⟩))

theorem runLoop_eq (outcome : Nat → Bool) (ro : Option (List String))
    (re : List String) :
    ∀ (ts : List (String × Node)) (i : Nat) (st : RunState),
      runLoop outcome ro re i ts st =
        { good := st.good + ((executedF ro re i ts).filter
            (fun e => outcome e.1)).length,
          bad := st.bad + ((executedF ro re i ts).filter
            (fun e => !outcome e.1)).length,
          failed := st.failed ++ ((executedF ro re i ts).filter
            (fun e => !outcome e.1)).map Prod.snd } := by
  intro ts
  induction ts with
  | nil => intro i st; simp [runLoop, executedF]
  | cons t ts ih =>
    intro i st
    by_cases hs : skipTest ro re t.1
    · simp [runLoop, executedF, hs, ih]
    · by_cases ho : outcome i
      · simp [runLoop, executedF, hs, ho, ih, List.filter_cons,
          RunState.mk.injEq, List.append_assoc]
        omega
      · simp [runLoop, executedF, hs, ho, ih, List.filter_cons,
          RunState.mk.injEq, List.append_assoc]
        omega

theorem executedF_not_skipped (ro : Option (List String)) (re : List String) :
    ∀ (ts : List (String × Node)) (i : Nat),
      ∀ e ∈ executedF ro re i ts, skipTest ro re e.2 = false := by
  intro ts
  induction ts with
  | nil => intro i e he; simp [executedF] at he
  | cons t ts ih =>
    intro i e he
    by_cases hs : skipTest ro re t.1
    · rw [executedF, if_pos hs] at he
      exact ih (i + 1) e he
    · rw [executedF, if_neg hs] at he
      rcases List.mem_cons.mp he with rfl | hmem
      · simpa using hs
      · exact ih (i + 1) e hmem

theorem mem_executedF_of_not_skipped (ro : Option (List String))
    (re : List String) :
    ∀ (ts : List (String × Node)) (i j : Nat) (t : String × Node),
      ts[j]? = some t → skipTest ro re t.1 = false →
      (i + j, t.1) ∈ executedF ro re i ts := by
  intro ts
  induction ts with
  | nil => intro i j t hget; simp at hget
  | cons u ts ih =>
    intro i j t hget hskip
    match j with
    | 0 =>
      simp at hget
      subst hget
      rw [executedF, if_neg (by simp [hskip])]
      simp
    | j + 1 =>
      simp at hget
      have := ih (i + 1) j t hget hskip
      have harith : i + (j + 1) = (i + 1) + j := by omega
      rw [executedF]
      by_cases hs : skipTest ro re u.1
      · rw [if_pos hs, harith]; exact this
      · rw [if_neg hs, harith]; exact List.mem_cons_of_mem _ this

theorem executedF_length (ro : Option (List String)) (re : List String) :
    ∀ (ts : List (String × Node)) (i : Nat),
      (executedF ro re i ts).length =
        (ts.filter (fun kv => !skipTest ro re kv.1)).length := by
  intro ts
  induction ts with
  | nil => intro i; rfl
  | cons t ts ih =>
    intro i
    by_cases hs : skipTest ro re t.1 <;>
      simp [executedF, List.filter_cons, hs, ih]

theorem runLoop_append (outcome : Nat → Bool) (ro : Option (List String))
    (re : List String) :
    ∀ (l₁ l₂ : List (String × Node)) (i : Nat) (st : RunState),
      runLoop outcome ro re i (l₁ ++ l₂) st =
        runLoop outcome ro re (i + l₁.length) l₂
          (runLoop outcome ro re i l₁ st) := by
  intro l₁
  induction l₁ with
  | nil => intro l₂ i st; simp [runLoop]
  | cons t ts ih =>
    intro l₂ i st
    have harith : i + (t :: ts).length = (i + 1) + ts.length := by
      simp; omega
    rw [harith]
    by_cases hs : skipTest ro re t.1
    · simp only [List.cons_append, runLoop, hs, if_true]
      exact ih l₂ (i + 1) st
    · by_cases ho : outcome i <;>
        simp only [List.cons_append, runLoop, hs, ho, if_true, if_false,
          Bool.false_eq_true, ite_true, ite_false] <;>
        exact ih l₂ (i + 1) _

theorem regular_tests_eq (host : String) (port : Nat) (nrc : Bool) :
    regular_tests host port nrc =
      [("try secure renegotiation with GET after 2nd CH",
         secureRenegoGetConversation host port nrc),
       ("try secure renegotiation with incomplete GET",
         secureRenegoIncompleteConversation host port nrc),
       ("try insecure (legacy) renegotiation with GET after 2nd CH",
         insecureRenegoGetConversation host port nrc),
       ("try insecure (legacy) renegotiation with incomplete GET",
         insecureRenegoIncompleteConversation host port nrc)] := rfl

/-! Claim C3. -/

/-- The node sequence claim C3 asserts for the sanity conversation, written
from the spec's words (section 8, end-to-end scenario): ciphers
[TLS_RSA_WITH_AES_128_CBC_SHA] alone, and an expectation matching
specifically a close_notify alert.  Kept separate from the source-derived
graph so the two can be compared. -/
def sanitySpineClaimed (host : String) (port : Nat) : List NodeKind :=
  [.connect host port,
   .clientHelloGenerator [TLS_RSA_WITH_AES_128_CBC_SHA] none none,
   .expectServerHello none, .expectCertificate, .expectServerHelloDone,
   .clientKeyExchangeGenerator, .changeCipherSpecGenerator, .finishedGenerator,
   .expectChangeCipherSpec, .expectFinished,
   .applicationDataGenerator getRequestFull,
   .expectApplicationData,
   .alertGenerator AlertLevel.warning AlertDescription.close_notify,
   .expectAlert (some AlertLevel.warning) (some AlertDescription.close_notify),
   .expectClose]

/-- Claim C3 fails on the code at host "localhost", port 4433: the sanity
conversation's node sequence differs from the claimed one (its ClientHello
also carries TLS_EMPTY_RENEGOTIATION_INFO_SCSV, line 82, and its alert
expectation is the unconstrained ExpectAlert(), line 97), whether or not
the trailing ExpectClose sibling is counted as part of the sequence. -/
theorem C3_counterexample :
    spine (sanityConversation "localhost" 4433) ≠
      sanitySpineClaimed "localhost" 4433 ∧
    spine (sanityConversation "localhost" 4433) ++ [NodeKind.expectClose] ≠
      sanitySpineClaimed "localhost" 4433 := by
  decide

/-- Claim C3 (amended): the sanity conversation is a linear chain whose
ClientHello carries the two ciphers [TLS_RSA_WITH_AES_128_CBC_SHA,
TLS_EMPTY_RENEGOTIATION_INFO_SCSV]; after the handshake, ApplicationData
GET and response nodes it sends a close_notify alert, expects any alert
(unconstrained ExpectAlert) and carries the terminal connection-close
expectation as the next_sibling of that alert expectation. -/
theorem C3_sanity_structure (host : String) (port : Nat) :
    spine (sanityConversation host port) =
      [.connect host port,
       .clientHelloGenerator
         [TLS_RSA_WITH_AES_128_CBC_SHA, TLS_EMPTY_RENEGOTIATION_INFO_SCSV]
         none none,
       .expectServerHello none, .expectCertificate, .expectServerHelloDone,
       .clientKeyExchangeGenerator, .changeCipherSpecGenerator,
       .finishedGenerator, .expectChangeCipherSpec, .expectFinished,
       .applicationDataGenerator getRequestFull,
       .expectApplicationData,
       .alertGenerator AlertLevel.warning AlertDescription.close_notify,
       .expectAlert none none] ∧
    lastSiblingKind (sanityConversation host port) = some .expectClose ∧
    linearChain (sanityConversation host port) = true :=
  ⟨rfl, rfl, rfl⟩

theorem afterCH_ne_of_eq {l : List NodeKind}
    (h : afterNthCH 1 l = some (.expectAlert (some AlertLevel.warning)
      (some AlertDescription.no_renegotiation))) :
    afterNthCH 1 l ≠ some (.expectAlert none none) := by
  rw [h]; decide

/-! Claim C4. -/

/-- Claim C4: in each of the four renegotiation conversations, the node
directly after the second ClientHello generator is an alert expectation
constrained to exactly level warning and description no_renegotiation, and
in particular not the unconstrained any-alert expectation. -/
theorem C4_alert_after_second_CH (host : String) (port : Nat) (nrc : Bool) :
    ∀ kv ∈ regular_tests host port nrc,
      afterNthCH 1 (spine kv.2) =
        some (.expectAlert (some AlertLevel.warning)
          (some AlertDescription.no_renegotiation)) ∧
      afterNthCH 1 (spine kv.2) ≠ some (.expectAlert none none) := by
  intro kv hkv
  rw [regular_tests_eq] at hkv
  simp only [List.mem_cons, List.not_mem_nil, or_false] at hkv
  rcases hkv with rfl | rfl | rfl | rfl <;> cases nrc <;>
    exact ⟨rfl, afterCH_ne_of_eq rfl⟩

theorem C4_witness :
    ("try secure renegotiation with GET after 2nd CH",
        secureRenegoGetConversation "localhost" 4433 false) ∈
      regular_tests "localhost" 4433 false ∧
    afterNthCH 1 (spine (secureRenegoGetConversation "localhost" 4433 false)) =
      some (.expectAlert (some AlertLevel.warning)
        (some AlertDescription.no_renegotiation)) :=
  ⟨by rw [regular_tests_eq]; exact List.mem_cons_self _ _,
   (C4_alert_after_second_CH "localhost" 4433 false _
     (by rw [regular_tests_eq]; exact List.mem_cons_self _ _)).1⟩

/-! Claim C5. -/

/-- Claim C5: in every renegotiation conversation a ResetHandshakeHashes
node sits directly before the ClientHello generator that starts the second
handshake (the second ClientHello generator of the chain), with no other
node between them, and it is the only ResetHandshakeHashes node of the
chain.  Per the spec (section 4.4) that node performs no I/O and only
mutates connection state; its class lives in tlsfuzzer.messages, outside
these sources. -/
theorem C5_reset_before_second_CH (host : String) (port : Nat) (nrc : Bool) :
    ∀ kv ∈ regular_tests host port nrc,
      predOfNthCH 1 (spine kv.2) = some NodeKind.resetHandshakeHashes ∧
      (spine kv.2).count NodeKind.resetHandshakeHashes = 1 := by
  intro kv hkv
  rw [regular_tests_eq] at hkv
  simp only [List.mem_cons, List.not_mem_nil, or_false] at hkv
  rcases hkv with rfl | rfl | rfl | rfl <;> cases nrc <;> exact ⟨rfl, rfl⟩

theorem C5_witness :
    ("try secure renegotiation with incomplete GET",
        secureRenegoIncompleteConversation "localhost" 4433 false) ∈
      regular_tests "localhost" 4433 false ∧
    predOfNthCH 1 (spine (secureRenegoIncompleteConversation "localhost" 4433 false)) =
      some NodeKind.resetHandshakeHashes :=
  ⟨by rw [regular_tests_eq]; exact List.mem_cons_of_mem _ (List.mem_cons_self _ _),
   (C5_reset_before_second_CH "localhost" 4433 false _
     (by rw [regular_tests_eq];
         exact List.mem_cons_of_mem _ (List.mem_cons_self _ _))).1⟩

/-! Claim C1. -/

theorem sampled_tests_eq (rand : Nat → Nat) (host : String) (port : Nat)
    (nrc : Bool) (k : Int) (hk : 1 ≤ k) :
    sampled_tests rand host port nrc (some k) =
      some (sampleR rand (min k 4).toNat (regular_tests host port nrc)) := by
  have hk0 : ¬(k = 0) := by omega
  have hlen : ((regular_tests host port nrc).length : Int) = (4 : Int) := by
    rw [regular_tests_eq]; rfl
  simp only [sampled_tests, pySample, effNumLimit, hk0, if_false, hlen]
  rw [if_pos ⟨le_min (by omega) (by omega), min_le_right _ _⟩]

/-- Claim C1 fails as stated: in the run of main() with command-line limit
num_limit = 0 (option -n 0) the falsy-test of lines 264-265 replaces 0 by
len(conversations) = 5, so all 4 non-sanity conversations are sampled, not
min(0, 4) = 0 of them. -/
theorem C1_counterexample :
    (sampled_tests (fun _ => 0) "localhost" 4433 false (some 0)).map
        List.length = some 4 ∧
    ¬((4 : Int) = min 0 4) :=
  ⟨rfl, by decide⟩

/-- Claim C1 (amended): for a command-line limit k with k ≥ 1, exactly
min(k, M) of the M = 4 non-sanity conversations are sampled, without
replacement (no conversation name appears twice among the sampled tests).
When k = 0 or no -n option is given, num_limit is falsy and defaults to the
total number of conversations, so all 4 non-sanity conversations are
sampled. -/
theorem C1_sampling (rand : Nat → Nat) (host : String) (port : Nat)
    (nrc : Bool) (k : Int) (hk : 1 ≤ k) :
    ∃ sampled, sampled_tests rand host port nrc (some k) = some sampled ∧
      (sampled.length : Int) =
        min k ((regular_tests host port nrc).length : Int) ∧
      (sampled.map Prod.fst).Nodup := by
  have hlen : ((regular_tests host port nrc).length : Int) = (4 : Int) := by
    rw [regular_tests_eq]; rfl
  have hlenN : (regular_tests host port nrc).length = 4 := by
    rw [regular_tests_eq]; rfl
  refine ⟨sampleR rand (min k 4).toNat (regular_tests host port nrc),
    sampled_tests_eq rand host port nrc k hk, ?_, ?_⟩
  · have hle : (min k 4).toNat ≤ (regular_tests host port nrc).length := by
      rw [hlenN]; omega
    rw [sampleR_length rand _ _ hle, hlen]
    omega
  · obtain ⟨rest, hperm⟩ :=
      sampleR_perm rand (min k 4).toNat (regular_tests host port nrc)
    have hmapeq : (regular_tests host port nrc).map Prod.fst =
        ["try secure renegotiation with GET after 2nd CH",
         "try secure renegotiation with incomplete GET",
         "try insecure (legacy) renegotiation with GET after 2nd CH",
         "try insecure (legacy) renegotiation with incomplete GET"] := rfl
    have hnames : ((regular_tests host port nrc).map Prod.fst).Nodup := by
      rw [hmapeq]; decide
    have hperm2 := hperm.map Prod.fst
    rw [List.map_append] at hperm2
    exact ((hperm2.nodup_iff).mp hnames).of_append_left

theorem C1_witness :
    (1 : Int) ≤ 2 ∧
    ∃ sampled,
      sampled_tests (fun _ => 0) "localhost" 4433 false (some 2) =
        some sampled ∧
      (sampled.length : Int) =
        min 2 ((regular_tests "localhost" 4433 false).length : Int) ∧
      (sampled.map Prod.fst).Nodup :=
  ⟨by decide, C1_sampling (fun _ => 0) "localhost" 4433 false 2 (by decide)⟩

/-! Claim C2. -/

/-- Claim C2: whatever the PRNG draws, the ordered test sequence of lines
267-272 starts with the sanity conversation, ends with the sanity
conversation, and places every sampled non-sanity conversation strictly
between the two sanity entries (sampled entry j sits at position j + 1,
with the final sanity entry after all of them). -/
theorem C2_sanity_first_last (rand : Nat → Nat) (host : String) (port : Nat)
    (nrc : Bool) (nl : Option Int) (sampled : List (String × Node))
    (h : sampled_tests rand host port nrc nl = some sampled) :
    ordered_tests rand host port nrc nl =
      some (("sanity", sanityConversation host port) ::
        (sampled ++ [("sanity", sanityConversation host port)])) ∧
    (("sanity", sanityConversation host port) ::
        (sampled ++ [("sanity", sanityConversation host port)])).head? =
      some ("sanity", sanityConversation host port) ∧
    (("sanity", sanityConversation host port) ::
        (sampled ++ [("sanity", sanityConversation host port)])).getLast? =
      some ("sanity", sanityConversation host port) ∧
    ∀ j < sampled.length,
      (("sanity", sanityConversation host port) ::
        (sampled ++ [("sanity", sanityConversation host port)]))[j + 1]? =
        sampled[j]? := by
  refine ⟨?_, rfl, ?_, ?_⟩
  · rw [ordered_tests, h]
    rfl
  · rw [← List.cons_append]
    exact List.getLast?_concat _
  · intro j hj
    rw [List.getElem?_cons_succ, List.getElem?_append_left hj]

theorem C2_witness :
    sampled_tests (fun _ => 0) "localhost" 4433 false (some 1) =
      some [("try secure renegotiation with GET after 2nd CH",
        secureRenegoGetConversation "localhost" 4433 false)] ∧
    ordered_tests (fun _ => 0) "localhost" 4433 false (some 1) =
      some (("sanity", sanityConversation "localhost" 4433) ::
        ([("try secure renegotiation with GET after 2nd CH",
            secureRenegoGetConversation "localhost" 4433 false)] ++
          [("sanity", sanityConversation "localhost" 4433)])) :=
  ⟨rfl,
   (C2_sanity_first_last (fun _ => 0) "localhost" 4433 false (some 1)
     [("try secure renegotiation with GET after 2nd CH",
        secureRenegoGetConversation "localhost" 4433 false)] rfl).1⟩

/-! Claim C6. -/

/-- Claim C6: an exception raised while running one conversation (outcome
false at its loop position; the script catches every Exception at the
single-conversation boundary, lines 282-287) only makes that conversation
count as bad with its name appended to failed, after which the loop goes on
to process all remaining conversations; the name is in the final failed
list. -/
theorem C6_failure_isolated (outcome : Nat → Bool) (ro : Option (List String))
    (re : List String) (pre post : List (String × Node)) (name : String)
    (conv : Node) (hskip : skipTest ro re name = false)
    (hfail : outcome pre.length = false) :
    runLoop outcome ro re 0 (pre ++ (name, conv) :: post) ⟨0, 0, []⟩ =
      runLoop outcome ro re (pre.length + 1) post
        { runLoop outcome ro re 0 pre ⟨0, 0, []⟩ with
          bad := (runLoop outcome ro re 0 pre ⟨0, 0, []⟩).bad + 1,
          failed := (runLoop outcome ro re 0 pre ⟨0, 0, []⟩).failed ++ [name] } ∧
    name ∈ (runLoop outcome ro re 0 (pre ++ (name, conv) :: post) ⟨0, 0, []⟩).failed := by
  have hsplit : runLoop outcome ro re 0 (pre ++ (name, conv) :: post) ⟨0, 0, []⟩ =
      runLoop outcome ro re (pre.length + 1) post
        { runLoop outcome ro re 0 pre ⟨0, 0, []⟩ with
          bad := (runLoop outcome ro re 0 pre ⟨0, 0, []⟩).bad + 1,
          failed := (runLoop outcome ro re 0 pre ⟨0, 0, []⟩).failed ++ [name] } := by
    rw [runLoop_append, Nat.zero_add]
    rw [show runLoop outcome ro re pre.length ((name, conv) :: post)
          (runLoop outcome ro re 0 pre ⟨0, 0, []⟩) =
        runLoop outcome ro re (pre.length + 1) post
          { runLoop outcome ro re 0 pre ⟨0, 0, []⟩ with
            bad := (runLoop outcome ro re 0 pre ⟨0, 0, []⟩).bad + 1,
            failed := (runLoop outcome ro re 0 pre ⟨0, 0, []⟩).failed ++ [name] }
      from by simp [runLoop, hskip, hfail]]
  refine ⟨hsplit, ?_⟩
  rw [hsplit, runLoop_eq]
  simp

/-- Closed instance of C6_failure_isolated: one conversation, its runner
raising; its name ends up in the failed list. -/
theorem C6_witness :
    skipTest none [] "x" = false ∧
    "x" ∈ (runLoop (fun _ => false) none [] 0
      ([] ++ ("x", Node.mk .expectClose [] none) :: []) ⟨0, 0, []⟩).failed :=
  ⟨rfl,
   (C6_failure_isolated (fun _ => false) none [] [] [] "x"
     (Node.mk .expectClose [] none) rfl rfl).2⟩

/-! Claim C7. -/

/-- Claim C7: at the end of the run loop, the process exit status modelled
by exitStatus is nonzero exactly when at least one executed conversation
failed, and zero exactly when every executed conversation succeeded. -/
theorem C7_exit_status (outcome : Nat → Bool) (ro : Option (List String))
    (re : List String) (ts : List (String × Node)) :
    (exitStatus (runLoop outcome ro re 0 ts ⟨0, 0, []⟩) ≠ 0 ↔
      ∃ e ∈ executedF ro re 0 ts, outcome e.1 = false) ∧
    (exitStatus (runLoop outcome ro re 0 ts ⟨0, 0, []⟩) = 0 ↔
      ∀ e ∈ executedF ro re 0 ts, outcome e.1 = true) := by
  have key : ∀ l : List (Nat × String),
      0 < (l.filter (fun e => !outcome e.1)).length ↔
        ∃ e ∈ l, outcome e.1 = false := by
    intro l
    induction l with
    | nil => simp
    | cons a l ih => by_cases h : outcome a.1 <;> simp [List.filter_cons, h, ih]
  have knot : ∀ l : List (Nat × String),
      (l.filter (fun e => !outcome e.1)).length = 0 ↔
        ∀ e ∈ l, outcome e.1 = true := by
    intro l
    induction l with
    | nil => simp
    | cons a l ih => by_cases h : outcome a.1 <;> simp [List.filter_cons, h, ih]
  have hbad : (runLoop outcome ro re 0 ts ⟨0, 0, []⟩).bad =
      ((executedF ro re 0 ts).filter (fun e => !outcome e.1)).length := by
    rw [runLoop_eq]
    simp
  constructor
  · simp only [exitStatus, hbad]
    by_cases hb : 0 < ((executedF ro re 0 ts).filter (fun e => !outcome e.1)).length
    · rw [if_pos hb]
      exact iff_of_true (by omega) ((key _).mp hb)
    · rw [if_neg hb]
      refine iff_of_false (by omega) ?_
      rintro ⟨e, he, hfe⟩
      have h2 := (knot _).mp (by omega) e he
      rw [hfe] at h2
      exact Bool.noConfusion h2
  · simp only [exitStatus, hbad]
    by_cases hb : 0 < ((executedF ro re 0 ts).filter (fun e => !outcome e.1)).length
    · rw [if_pos hb]
      refine iff_of_false (by omega) ?_
      intro hall
      obtain ⟨e, he, hfe⟩ := (key _).mp hb
      have h2 := hall e he
      rw [hfe] at h2
      exact Bool.noConfusion h2
    · rw [if_neg hb]
      exact iff_of_true rfl ((knot _).mp (by omega))

/-! Claim C8. -/

/-- Claim C8 fails as stated: in the concrete run with PRNG constantly 0,
num_limit 1, no filters, where the runner succeeds on the first two loop
iterations and raises on the last (the closing sanity attempt), no function
from conversation name to pass/fail outcome agrees with the attempted
outcomes — the name "sanity" is attempted twice with different results, so
the result data is not a mapping from conversation name to outcome. -/
theorem C8_counterexample :
    ¬ ∃ f : String → Bool,
        ∀ p ∈ attemptedOutcomes (fun i => i != 2) none []
          ((ordered_tests (fun _ => 0) "localhost" 4433 false (some 1)).getD []),
          f p.1 = p.2 := by
  rintro ⟨f, hf⟩
  have hcomp : attemptedOutcomes (fun i => i != 2) none []
      ((ordered_tests (fun _ => 0) "localhost" 4433 false (some 1)).getD []) =
      [("sanity", true),
       ("try secure renegotiation with GET after 2nd CH", true),
       ("sanity", false)] := rfl
  have h0 : f "sanity" = true := hf ("sanity", true) (by rw [hcomp]; simp)
  have h2 : f "sanity" = false := hf ("sanity", false) (by rw [hcomp]; simp)
  rw [h0] at h2
  exact Bool.noConfusion h2

/-- Claim C8 (amended): the result data is built fresh for the run (both
counters from 0, failed from []) and records the attempted conversations
only in aggregate: failed holds exactly the names of the failing attempts
(a name can recur, since the sanity conversation is attempted twice), good
and bad count the passing and failing attempts; the exception context of a
failure is printed when it is caught, not stored in the result data. -/
theorem C8_result_set (outcome : Nat → Bool) (ro : Option (List String))
    (re : List String) (ts : List (String × Node)) :
    (∀ name, name ∈ (runLoop outcome ro re 0 ts ⟨0, 0, []⟩).failed ↔
        (name, false) ∈ attemptedOutcomes outcome ro re ts) ∧
    (runLoop outcome ro re 0 ts ⟨0, 0, []⟩).good =
      ((attemptedOutcomes outcome ro re ts).filter (fun p => p.2)).length ∧
    (runLoop outcome ro re 0 ts ⟨0, 0, []⟩).bad =
      ((attemptedOutcomes outcome ro re ts).filter (fun p => !p.2)).length := by
  rw [runLoop_eq]
  refine ⟨?_, ?_, ?_⟩
  · intro name
    simp only [attemptedOutcomes, List.nil_append]
    constructor
    · intro hmem
      obtain ⟨e, hef, he2⟩ := List.mem_map.mp hmem
      obtain ⟨hex, hne⟩ := List.mem_filter.mp hef
      have hout : outcome e.1 = false := by simpa using hne
      refine List.mem_map.mpr ⟨e, hex, ?_⟩
      show (e.2, outcome e.1) = (name, false)
      rw [he2, hout]
    · intro hmem
      obtain ⟨e, hex, heq⟩ := List.mem_map.mp hmem
      have he2 : e.2 = name := congrArg Prod.fst heq
      have hout : outcome e.1 = false := congrArg Prod.snd heq
      refine List.mem_map.mpr ⟨e, List.mem_filter.mpr ⟨hex, ?_⟩, he2⟩
      show (!outcome e.1) = true
      rw [hout]
      rfl
  · have hc : ((fun p => p.2) ∘ fun e : Nat × String => (e.2, outcome e.1)) =
        (fun e : Nat × String => outcome e.1) := rfl
    simp [attemptedOutcomes, List.filter_map, hc]
  · have hc : ((fun p => !p.2) ∘ fun e : Nat × String => (e.2, outcome e.1)) =
        (fun e : Nat × String => !outcome e.1) := rfl
    simp [attemptedOutcomes, List.filter_map, hc]

/-! Claim C10. -/

/-- Claim C10: every executed conversation bumps exactly one of good and
bad, so after the loop good + bad equals the number of executed
conversations, failed holds exactly the names of the bad-counted ones (in
order, one entry per failure), and its length equals bad. -/
theorem C10_counter_invariant (outcome : Nat → Bool)
    (ro : Option (List String)) (re : List String)
    (ts : List (String × Node)) :
    (runLoop outcome ro re 0 ts ⟨0, 0, []⟩).good +
        (runLoop outcome ro re 0 ts ⟨0, 0, []⟩).bad =
      (executedF ro re 0 ts).length ∧
    (runLoop outcome ro re 0 ts ⟨0, 0, []⟩).failed =
      ((executedF ro re 0 ts).filter (fun e => !outcome e.1)).map Prod.snd ∧
    (runLoop outcome ro re 0 ts ⟨0, 0, []⟩).failed.length =
      (runLoop outcome ro re 0 ts ⟨0, 0, []⟩).bad := by
  rw [runLoop_eq]
  refine ⟨?_, by simp, by simp⟩
  simpa using length_filter_split (executedF ro re 0 ts) (fun e => outcome e.1)

/-! Claim C9. -/

/-- Claim C9: the run_only / run_exclude filters act only inside the run
loop, after sampling, on every entry of the ordered sequence, sanity
entries included: an entry at position j is executed iff its name passes
the line-275 test; when "sanity" is excluded no executed entry is the
sanity conversation; and with run_only unset and run_exclude = sanity
exactly the sampled conversations run, i.e. min(k, M) of them, fewer than
the min(k, M) + 2 entries of the ordered sequence. -/
theorem C9_filters_after_sampling (rand : Nat → Nat) (host : String)
    (port : Nat) (nrc : Bool) (nl : Option Int) (ro : Option (List String))
    (re : List String) (sampled : List (String × Node))
    (hs : sampled_tests rand host port nrc nl = some sampled) :
    (∀ j t,
      (sanity_tests host port ++ sampled ++ sanity_tests host port)[j]? = some t →
        (skipTest ro re t.1 = true ↔
          (j, t.1) ∉ executedF ro re 0
            (sanity_tests host port ++ sampled ++ sanity_tests host port))) ∧
    ("sanity" ∈ re →
      ∀ e ∈ executedF ro re 0
        (sanity_tests host port ++ sampled ++ sanity_tests host port),
        e.2 ≠ "sanity") ∧
    (executedF none ["sanity"] 0
        (sanity_tests host port ++ sampled ++ sanity_tests host port)).length =
      sampled.length := by
  obtain ⟨rest, hperm⟩ :
      ∃ rest, (regular_tests host port nrc).Perm (sampled ++ rest) := by
    simp only [sampled_tests, pySample] at hs
    split at hs
    · obtain ⟨rest, hp⟩ := sampleR_perm rand _ (regular_tests host port nrc)
      exact ⟨rest, by rwa [Option.some.inj hs] at hp⟩
    · simp at hs
  have hname : ∀ kv ∈ sampled, kv.1 ≠ "sanity" := by
    intro kv hkv
    have hmemreg : kv ∈ regular_tests host port nrc :=
      hperm.mem_iff.mpr (List.mem_append_left _ hkv)
    simp only [regular_tests] at hmemreg
    have hpred := (List.mem_filter.mp hmemreg).2
    simpa using hpred
  refine ⟨?_, ?_, ?_⟩
  · intro j t hget
    constructor
    · intro hskipT hmem
      have hns := executedF_not_skipped ro re _ 0 (j, t.1) hmem
      have h2 : skipTest ro re t.1 = false := hns
      rw [hskipT] at h2
      exact Bool.noConfusion h2
    · intro hnot
      by_contra hne
      have hskipF : skipTest ro re t.1 = false := by
        cases hq : skipTest ro re t.1
        · rfl
        · exact absurd hq hne
      exact hnot
        (by simpa using mem_executedF_of_not_skipped ro re _ 0 j t hget hskipF)
  · intro hre e he heq
    have hns := executedF_not_skipped ro re _ 0 e he
    rw [heq] at hns
    simp [skipTest] at hns
    exact hns.2 hre
  · rw [executedF_length]
    have h1 : (sanity_tests host port).filter
        (fun kv => !skipTest none ["sanity"] kv.1) = [] := rfl
    have h2 : sampled.filter (fun kv => !skipTest none ["sanity"] kv.1) =
        sampled := by
      refine List.filter_eq_self.mpr ?_
      intro kv hkv
      simp [skipTest, pyTruthy, hname kv hkv]
    rw [List.filter_append, List.filter_append, h1, h2]
    simp

theorem C9_witness :
    sampled_tests (fun _ => 0) "localhost" 4433 false (some 1) =
      some [("try secure renegotiation with GET after 2nd CH",
        secureRenegoGetConversation "localhost" 4433 false)] ∧
    (executedF none ["sanity"] 0
        (sanity_tests "localhost" 4433 ++
          [("try secure renegotiation with GET after 2nd CH",
            secureRenegoGetConversation "localhost" 4433 false)] ++
          sanity_tests "localhost" 4433)).length = 1 :=
  ⟨rfl,
   (C9_filters_after_sampling (fun _ => 0) "localhost" 4433 false (some 1)
     none ["sanity"]
     [("try secure renegotiation with GET after 2nd CH",
        secureRenegoGetConversation "localhost" 4433 false)] rfl).2.2⟩

end TRD
